import Mathlib

/-!
A shallow embedding of the core of `shunit` (src/main.rs, src/model.rs) and
proofs about it.  Rust strings are modelled as lists of characters,
`DateTime<Utc>` instants as naturals ordered by `≤`, and the stable
`sort_by` of `Vec` as `List.mergeSort` with the same comparator.
-/

namespace Shunit

/-- Instants (`DateTime<Utc>` in the source), modelled as naturals ordered by `≤`. -/
abbrev Timestamp := Nat

/-- Rust `String`, modelled as a list of characters. -/
abbrev Text := List Char

/-- `type LogLine = (DateTime<Utc>, String);` — src/main.rs line 18. -/
abbrev LogLine := Timestamp × Text

/-- Rust `message.ends_with('\n')`: the last character is a newline. -/
def endsNewline (t : Text) : Bool := t.getLast? == some '\n'

/-- The comparator of `join_and_sort`: `a.0.cmp(&b.0)` orders fragments by
timestamp. -/
def leTS (a b : LogLine) : Bool := decide (a.1 ≤ b.1)

/-- Embedding of `join_and_sort` (src/main.rs lines 169-175): concatenate the two
fragment vectors and stable-sort by timestamp (`result.sort_by(|a, b| a.0.cmp(&b.0))`;
Rust `sort_by` is stable, as is `List.mergeSort` with the comparator `leTS`). -/
def join_and_sort (stdout stderr : List LogLine) : List LogLine :=
  (stdout ++ stderr).mergeSort leTS

/-- Loop of `join_log_lines` (src/main.rs lines 190-200): `line` is the pending
buffer, `first_ts` the timestamp of its first fragment; the flush condition
`message.ends_with('\n') || index == (messages.len() - 1)` is rendered with
`rest.isEmpty` for the last-element test. -/
def joinAux : Text → Option Timestamp → List LogLine → List LogLine
  | _, _, [] => []
  | line, first_ts, (ts, message) :: rest =>
    let line2 := line ++ message
    let fts := first_ts.getD ts
    if endsNewline message || rest.isEmpty then
      (fts, line2) :: joinAux [] none rest
    else
      joinAux line2 (some fts) rest

/-- Embedding of `join_log_lines` (src/main.rs lines 185-203). -/
def join_log_lines (messages : List LogLine) : List LogLine :=
  joinAux [] none messages

/-- `body.into_iter().map(|line| line.1).collect::<Vec<String>>().concat()`
(src/main.rs lines 92-93): the texts of a fragment sequence, concatenated. -/
def concatTexts (l : List LogLine) : Text := (l.map Prod.snd).flatten

/-- The failure body computed by `main` (src/main.rs lines 91-93): join each
captured stream separately, merge the joined lines, concatenate the texts. -/
def failureBody (stdout stderr : List LogLine) : Text :=
  concatTexts (join_and_sort (join_log_lines stdout) (join_log_lines stderr))

/-- Modelled from the spec (§4.4): the body pipeline as the spec words it —
StreamMerger on the raw fragments, then LineJoiner, then verbatim concatenation. -/
def specBody (stdout stderr : List LogLine) : Text :=
  concatTexts (join_log_lines (join_and_sort stdout stderr))

/-- `std::process::ExitStatus`: a normal exit carrying a code, or termination
by a signal (in which case `code()` is `None`). -/
inductive ExitStatus where
  | exited (n : Int)
  | signaled
deriving DecidableEq

/-- `ExitStatus::success()`: exited normally with code 0. -/
def ExitStatus.success : ExitStatus → Bool
  | .exited n => n == 0
  | .signaled => false

/-- `ExitStatus::code()`: `Some(code)` on normal exit, `None` on a signal. -/
def ExitStatus.exitCode : ExitStatus → Option Int
  | .exited n => some n
  | .signaled => none

/-- `TestError` (src/model.rs lines 18-25), without serialization attributes. -/
structure TestError where
  message : Text
  error_type : Text
  body : Text
deriving DecidableEq

/-- The value of `run_script` as `main` observes it: the exit status plus the
two captured fragment vectors, or an error message (`ScriptResult`, src/main.rs line 20). -/
abbrev RunResult := Except Text (ExitStatus × List LogLine × List LogLine)

/-- The per-script classification in `main` (src/main.rs lines 83-109):
success yields no error; a non-zero exit yields an "Assertion failed" record
whose message carries `exit_code.code().unwrap_or(-1)` and whose body is the
joined-then-merged output; a `run_script` error yields an "IO error" record. -/
def classifyResult (result : RunResult) : Option TestError :=
  match result with
  | .ok (exit_code, stdout, stderr) =>
    if exit_code.success then
      none
    else
      some { message := "Non-zero exit-code: ".toList ++ (toString (exit_code.exitCode.getD (-1))).toList
           , error_type := "Assertion failed".toList
           , body := failureBody stdout stderr }
  | .error e =>
      some { message := e, error_type := "IO error".toList, body := [] }

/-- One script of a run together with the environment's responses to it:
`canonical` is the result of `fs::canonicalize(&name)` converted to a string
(`none` models resolution or conversion failure), `result` the outcome of
`run_script`. -/
structure ScriptSpec where
  name : Text
  canonical : Option Text
  result : RunResult

/-- `TestCase` (src/model.rs lines 28-37), without the wall-clock `time` field. -/
structure TestCase where
  classname : Text
  name : Text
  error : Option TestError
deriving DecidableEq

/-- The per-script loop of `main` (src/main.rs lines 70-119).  The statement
`let absolute_path = fs::canonicalize(&name)?;` propagates a resolution
failure out of `main` itself, modelled by `Except.error`; otherwise each
script contributes one `TestCase` built from `classifyResult` of its run. -/
def processScripts : List ScriptSpec → Except Text (List TestCase)
  | [] => .ok []
  | s :: rest =>
    match s.canonical with
    | none => .error ("No such file or directory".toList)
    | some cn =>
      (processScripts rest).map fun cases =>
        { classname := cn, name := s.name, error := classifyResult s.result } :: cases

/-- The stdout fragments a script contributes to `stdout_messages`
(src/main.rs line 85): only an `Ok` run contributes. -/
def scriptStdout (s : ScriptSpec) : List LogLine :=
  match s.result with
  | .ok (_, stdout, _) => stdout
  | .error _ => []

/-- The stderr fragments a script contributes to `stderr_messages`
(src/main.rs line 86). -/
def scriptStderr (s : ScriptSpec) : List LogLine :=
  match s.result with
  | .ok (_, _, stderr) => stderr
  | .error _ => []

/-- `error_count` (src/main.rs line 102): scripts whose `run_script` failed. -/
def errorCount (scripts : List ScriptSpec) : Nat :=
  (scripts.filter fun s => match s.result with | .error _ => true | .ok _ => false).length

/-- `failure_count` (src/main.rs line 90): scripts that ran but exited unsuccessfully. -/
def failureCount (scripts : List ScriptSpec) : Nat :=
  (scripts.filter fun s =>
    match s.result with | .ok (e, _, _) => !e.success | .error _ => false).length

/-- `TestSuite` (src/model.rs lines 41-64), restricted to the fields `main`
computes from the scripts themselves (hostname, timestamp, name and the
environment properties come from the ambient process). -/
structure TestSuite where
  tests : Nat
  errors : Nat
  failures : Nat
  testcases : List TestCase
  system_out : Text
  system_err : Text
deriving DecidableEq

/-- `main` (src/main.rs lines 46-166) as a function of the script list.
`Except.ok none` models the early `return Ok(());` taken when the script list
is empty (src/main.rs lines 60-62), before any report is built;
`Except.ok (some suite)` models a normal exit that serialized `suite`;
`Except.error` models `main` returning `Err` (no report written). -/
def mainModel (scripts : List ScriptSpec) : Except Text (Option TestSuite) :=
  if scripts.isEmpty then
    .ok none
  else
    (processScripts scripts).map fun cases =>
      some { tests := scripts.length
           , errors := errorCount scripts
           , failures := failureCount scripts
           , testcases := cases
           , system_out := concatTexts (scripts.map scriptStdout).flatten
           , system_err := concatTexts (scripts.map scriptStderr).flatten }

/-- Whether `mainModel` produced (wrote) a report. -/
def producedReport (scripts : List ScriptSpec) : Bool :=
  match mainModel scripts with
  | .ok (some _) => true
  | _ => false

/- ### Helper lemmas about the joiner and the merger -/

/-- On a non-empty suffix, the joiner emits exactly the pending buffer followed
by all remaining fragment text. -/
theorem joinAux_concatTexts (l : List LogLine) :
    ∀ (line : Text) (fts : Option Timestamp), l ≠ [] →
      concatTexts (joinAux line fts l) = line ++ concatTexts l := by
  induction l with
  | nil => intro _ _ h; exact absurd rfl h
  | cons x rest ih =>
    intro line fts _
    obtain ⟨ts, message⟩ := x
    rcases eq_or_ne rest [] with hr | hr
    · subst hr
      simp [joinAux, concatTexts]
    · have hre : rest.isEmpty = false := List.isEmpty_eq_false.mpr hr
      by_cases hterm : endsNewline message = true
      · simp only [joinAux, hterm, Bool.true_or, if_true, concatTexts,
          List.map_cons, List.flatten_cons]
        have h2 := ih [] none hr
        simp only [concatTexts] at h2
        simp [h2, List.append_assoc]
      · have hterm' : endsNewline message = false := by simpa using hterm
        have h2 := ih (line ++ message) (some (fts.getD ts)) hr
        simp only [joinAux, hterm', hre, Bool.or_self, Bool.false_eq_true, if_false]
        rw [h2]
        simp [concatTexts, List.append_assoc]

/-- The joiner never emits more lines than it was given fragments. -/
theorem joinAux_length_le (l : List LogLine) :
    ∀ (line : Text) (fts : Option Timestamp), (joinAux line fts l).length ≤ l.length := by
  induction l with
  | nil => intro _ _; simp [joinAux]
  | cons x rest ih =>
    intro line fts
    obtain ⟨ts, message⟩ := x
    by_cases hc : (endsNewline message || rest.isEmpty) = true
    · simp only [joinAux, hc, if_true, List.length_cons]
      exact Nat.succ_le_succ (ih [] none)
    · have hc' : (endsNewline message || rest.isEmpty) = false := by simpa using hc
      simp only [joinAux, hc', Bool.false_eq_true, if_false, List.length_cons]
      exact Nat.le_succ_of_le (ih _ _)

/-- The joiner emits at least one line when given at least one fragment. -/
theorem joinAux_ne_nil (l : List LogLine) :
    ∀ (line : Text) (fts : Option Timestamp), l ≠ [] → joinAux line fts l ≠ [] := by
  induction l with
  | nil => intro _ _ h; exact absurd rfl h
  | cons x rest ih =>
    intro line fts _
    obtain ⟨ts, message⟩ := x
    rcases eq_or_ne rest [] with hr | hr
    · subst hr; simp [joinAux]
    · have hre : rest.isEmpty = false := List.isEmpty_eq_false.mpr hr
      by_cases hterm : endsNewline message = true
      · simp [joinAux, hterm]
      · have hterm' : endsNewline message = false := by simpa using hterm
        simp only [joinAux, hterm', hre, Bool.or_self, Bool.false_eq_true, if_false]
        exact ih _ _ hr

/-- When every fragment is line-terminated, the joiner is the identity. -/
theorem joinAux_terminated (l : List LogLine)
    (h : ∀ x ∈ l, endsNewline x.2 = true) : joinAux [] none l = l := by
  induction l with
  | nil => simp [joinAux]
  | cons x rest ih =>
    obtain ⟨ts, message⟩ := x
    have hx : endsNewline message = true := h (ts, message) (List.mem_cons_self _ _)
    simp only [joinAux, hx, Bool.true_or, if_true]
    have := ih (fun y hy => h y (List.mem_cons_of_mem _ hy))
    simp [this]

/-- The comparator of `join_and_sort` is transitive. -/
theorem leTS_trans : ∀ a b c : LogLine, leTS a b → leTS b c → leTS a c := by
  intro a b c hab hbc
  have h1 : a.1 ≤ b.1 := of_decide_eq_true hab
  have h2 : b.1 ≤ c.1 := of_decide_eq_true hbc
  exact decide_eq_true (Nat.le_trans h1 h2)

/-- The comparator of `join_and_sort` is total. -/
theorem leTS_total : ∀ a b : LogLine, (leTS a b || leTS b a) = true := by
  intro a b
  rcases Nat.le_total a.1 b.1 with h | h
  · have hh : leTS a b = true := decide_eq_true h
    simp [hh]
  · have hh : leTS b a = true := decide_eq_true h
    simp [hh]

/- ### Claims C4, C5, C6, C7, C10 -/

/-- Claim C4: joining the fragments ("A", t1), ("B\n", t2), ("C", t3) — the
last being unterminated — yields exactly the two lines ("AB\n", t1) and
("C", t3): fragments are glued with no delimiter and each line carries the
timestamp of its first constituent fragment (mirrors `test_join_log_lines`,
src/main.rs lines 269-284). -/
theorem join_partial_line_gluing (t1 t2 t3 : Timestamp) :
    join_log_lines [(t1, "A".toList), (t2, "B\n".toList), (t3, "C".toList)]
      = [(t1, "AB\n".toList), (t3, "C".toList)] := by
  simp [join_log_lines, joinAux, endsNewline, String.toList]

/-- Claim C5: merging the singleton stdout [(t, "x")] with the singleton
stderr [(t, "y")] at equal timestamps yields [(t, "x"), (t, "y")]; in
general, for every timestamp u the fragments of the merged output carrying
timestamp u appear in exactly the order they have in the concatenation
stdout ++ stderr, so ties are broken stdout-before-stderr. -/
theorem merge_stable_on_ties (t : Timestamp) (l1 l2 : List LogLine) (u : Timestamp) :
    join_and_sort [(t, "x".toList)] [(t, "y".toList)] = [(t, "x".toList), (t, "y".toList)]
    ∧ (join_and_sort l1 l2).filter (fun a => a.1 == u)
        = (l1 ++ l2).filter (fun a => a.1 == u) := by
  constructor
  · simp [join_and_sort, List.mergeSort, leTS]
  · set p : LogLine → Bool := fun a => a.1 == u with hp
    set c : List LogLine := (l1 ++ l2).filter p with hc
    have hmemc : ∀ a ∈ c, p a = true := fun a ha => List.of_mem_filter ha
    have hfst : ∀ a ∈ c, a.1 = u := by
      intro a ha
      have := hmemc a ha
      simpa [hp] using this
    have hpair : c.Pairwise (fun a b : LogLine => leTS a b = true) := by
      apply List.pairwise_of_forall_mem_list
      intro a ha b hb
      simp [leTS, hfst a ha, hfst b hb]
    have hsub : List.Sublist c (l1 ++ l2) := List.filter_sublist _
    have hsub2 : List.Sublist c ((l1 ++ l2).mergeSort leTS) :=
      List.sublist_mergeSort leTS_trans leTS_total hpair hsub
    have hcc : c.filter p = c := List.filter_eq_self.mpr hmemc
    have hsub3 : List.Sublist c (((l1 ++ l2).mergeSort leTS).filter p) := by
      have := List.Sublist.filter p hsub2
      rwa [hcc] at this
    have hperm : (((l1 ++ l2).mergeSort leTS).filter p).Perm ((l1 ++ l2).filter p) :=
      List.Perm.filter p (List.mergeSort_perm (l1 ++ l2) _)
    have hlen : c.length = (((l1 ++ l2).mergeSort leTS).filter p).length := by
      rw [List.Perm.length_eq hperm, hc]
    exact (hsub3.eq_of_length hlen).symm

/-- Claim C6: for every pair of input fragment sequences, the merged output's
timestamps are non-decreasing (every element's timestamp is at most every
later element's, in particular its successor's). -/
theorem merge_total_order (l1 l2 : List LogLine) :
    (join_and_sort l1 l2).Pairwise (fun a b => a.1 ≤ b.1) := by
  have h := List.sorted_mergeSort leTS_trans leTS_total (l1 ++ l2)
  exact h.imp fun hab => of_decide_eq_true hab

/-- Claim C7: on input whose every fragment's text ends with a line
terminator, the join is the identity — same length, each output line equal
to the corresponding input fragment verbatim. -/
theorem join_identity_on_terminated (l : List LogLine)
    (h : l.all (fun x => endsNewline x.2) = true) :
    join_log_lines l = l ∧ (join_log_lines l).length = l.length := by
  have h' : ∀ x ∈ l, endsNewline x.2 = true := by
    intro x hx
    exact List.all_eq_true.mp h x hx
  have := joinAux_terminated l h'
  exact ⟨this, by rw [join_log_lines, this]⟩

/-- Witness for C7 at a concrete pre-terminated input. -/
theorem join_identity_on_terminated_witness :
    ([(1, "A\n".toList), (2, "B\n".toList)].all (fun x => endsNewline x.2) = true)
    ∧ (join_log_lines [(1, "A\n".toList), (2, "B\n".toList)]
        = [(1, "A\n".toList), (2, "B\n".toList)]
      ∧ (join_log_lines [(1, "A\n".toList), (2, "B\n".toList)]).length
        = ([(1, "A\n".toList), (2, "B\n".toList)] : List LogLine).length) :=
  ⟨by decide, join_identity_on_terminated _ (by decide)⟩

/-- Claim C10: the join loses no text — the concatenation of the output
texts equals the concatenation of the input texts, the output is no longer
than the input, and is non-empty whenever the input is. -/
theorem join_preserves_text (l : List LogLine) :
    concatTexts (join_log_lines l) = concatTexts l
    ∧ (join_log_lines l).length ≤ l.length
    ∧ (l ≠ [] → join_log_lines l ≠ []) := by
  refine ⟨?_, joinAux_length_le l [] none, fun h => joinAux_ne_nil l [] none h⟩
  by_cases h : l = []
  · subst h; simp [join_log_lines, joinAux, concatTexts]
  · simpa using joinAux_concatTexts l [] none h

/-- Witness for C10 at a concrete input with an unterminated tail. -/
theorem join_preserves_text_witness :
    (concatTexts (join_log_lines [(1, "A".toList), (2, "B".toList)])
        = concatTexts [(1, "A".toList), (2, "B".toList)]
      ∧ (join_log_lines [(1, "A".toList), (2, "B".toList)]).length
        ≤ ([(1, "A".toList), (2, "B".toList)] : List LogLine).length)
    ∧ join_log_lines [(1, "A".toList), (2, "B".toList)] ≠ [] :=
  ⟨⟨(join_preserves_text _).1, (join_preserves_text _).2.1⟩,
    (join_preserves_text [(1, "A".toList), (2, "B".toList)]).2.2 (by decide)⟩

/- ### Claim C1: the body pipeline -/

/-- Claim C1 counterexample: with stdout fragments ("A", 1), ("B\n", 3) and
stderr fragment ("C\n", 2), the code's join-each-stream-then-merge body
("AB\nC\n") differs from the spec's merge-then-join body ("AC\nB\n"), so the
two pipelines are not equivalent for every pair of fragment sequences. -/
theorem body_pipeline_cex :
    failureBody [(1, "A".toList), (3, "B\n".toList)] [(2, "C\n".toList)]
      ≠ specBody [(1, "A".toList), (3, "B\n".toList)] [(2, "C\n".toList)] := by
  have h1 : failureBody [(1, "A".toList), (3, "B\n".toList)] [(2, "C\n".toList)]
      = "AB\nC\n".toList := by
    simp [failureBody, join_and_sort, join_log_lines, joinAux, endsNewline,
      concatTexts, List.mergeSort, List.merge, leTS, String.toList]
  have h2 : specBody [(1, "A".toList), (3, "B\n".toList)] [(2, "C\n".toList)]
      = "AC\nB\n".toList := by
    simp [specBody, join_and_sort, join_log_lines, joinAux, endsNewline,
      concatTexts, List.mergeSort, List.merge, leTS, String.toList]
  rw [h1, h2]
  decide

/-- Claim C1 (amended): the failure body is computed by joining each captured
stream with LineJoiner and then merging the joined lines with StreamMerger;
this coincides with the spec's merge-then-join pipeline whenever every
captured fragment in both streams is line-terminated. -/
theorem body_pipelines_agree_on_terminated (stdout stderr : List LogLine)
    (h1 : stdout.all (fun x => endsNewline x.2) = true)
    (h2 : stderr.all (fun x => endsNewline x.2) = true) :
    failureBody stdout stderr = specBody stdout stderr := by
  have h1' : ∀ x ∈ stdout, endsNewline x.2 = true := fun x hx => List.all_eq_true.mp h1 x hx
  have h2' : ∀ x ∈ stderr, endsNewline x.2 = true := fun x hx => List.all_eq_true.mp h2 x hx
  have hj1 : join_log_lines stdout = stdout := joinAux_terminated stdout h1'
  have hj2 : join_log_lines stderr = stderr := joinAux_terminated stderr h2'
  have hmem : ∀ x ∈ join_and_sort stdout stderr, endsNewline x.2 = true := by
    intro x hx
    have hx2 : x ∈ (stdout ++ stderr).mergeSort leTS := hx
    have hx' : x ∈ stdout ++ stderr := List.mem_mergeSort.mp hx2
    rcases List.mem_append.mp hx' with h | h
    · exact h1' x h
    · exact h2' x h
  have hj3 : join_log_lines (join_and_sort stdout stderr) = join_and_sort stdout stderr :=
    joinAux_terminated _ hmem
  unfold failureBody specBody
  rw [hj1, hj2, hj3]

/-- Witness for the amended C1 at a concrete pair of terminated streams. -/
theorem body_pipelines_agree_on_terminated_witness :
    (([(1, "a\n".toList)] : List LogLine).all (fun x => endsNewline x.2) = true)
    ∧ (([(2, "b\n".toList)] : List LogLine).all (fun x => endsNewline x.2) = true)
    ∧ failureBody [(1, "a\n".toList)] [(2, "b\n".toList)]
        = specBody [(1, "a\n".toList)] [(2, "b\n".toList)] :=
  ⟨by decide, by decide,
    body_pipelines_agree_on_terminated _ _ (by decide) (by decide)⟩

/- ### Claims C2 and C3: the per-script loop and the empty run -/

/-- A script whose path does not resolve (`fs::canonicalize` fails). -/
def ghostScript : ScriptSpec :=
  { name := "ghost.sh".toList
  , canonical := none
  , result := .error ("No such file or directory".toList) }

/-- A script that resolves and runs successfully. -/
def okScript : ScriptSpec :=
  { name := "im_ok.sh".toList
  , canonical := some "/work/im_ok.sh".toList
  , result := .ok (.exited 0, [], []) }

/-- A script that resolves but whose spawn fails. -/
def badSpawnScript : ScriptSpec :=
  { name := "JUnit.xml".toList
  , canonical := some "/work/JUnit.xml".toList
  , result := .error ("Permission denied".toList) }

/-- Claim C2 counterexample: a script whose executable cannot be found fails
`fs::canonicalize(&name)?`, which aborts the whole `main` — the run produces
no outcomes at all (no "IO error" record, and the subsequent valid script is
never reported), contradicting the claim for scripts that cannot be found. -/
theorem missing_script_aborts_run_cex :
    (mainModel [ghostScript, okScript]).isOk = false
    ∧ producedReport [ghostScript, okScript] = false :=
  ⟨rfl, rfl⟩

/-- Each resolved script contributes exactly one `TestCase`, built
independently of the other scripts' results. -/
theorem processScripts_of_resolved (scripts : List ScriptSpec)
    (h : ∀ s ∈ scripts, s.canonical.isSome = true) :
    processScripts scripts
      = .ok (scripts.map fun s =>
          { classname := s.canonical.getD [], name := s.name
          , error := classifyResult s.result }) := by
  induction scripts with
  | nil => rfl
  | cons s rest ih =>
    have hs : s.canonical.isSome = true := h s (List.mem_cons_self _ _)
    obtain ⟨cn, hcn⟩ := Option.isSome_iff_exists.mp hs
    have ih' := ih fun x hx => h x (List.mem_cons_of_mem _ hx)
    simp [processScripts, hcn, ih', Except.map]

/-- Claim C2 (amended): in a run in which every script's path resolves, the
loop never aborts: it yields exactly one `TestCase` per script, each script's
outcome depending only on its own run result, and a script whose spawn fails
is classified with `error_type = "IO error"` while all subsequent scripts
still get their own outcomes. -/
theorem spawn_failure_isolation (scripts : List ScriptSpec) (msg : Text)
    (h : scripts.all (fun s => s.canonical.isSome) = true) :
    processScripts scripts
      = .ok (scripts.map fun s =>
          { classname := s.canonical.getD [], name := s.name
          , error := classifyResult s.result })
    ∧ classifyResult (.error msg)
        = some { message := msg, error_type := "IO error".toList, body := [] } :=
  ⟨processScripts_of_resolved scripts
      (fun s hs => by simpa using List.all_eq_true.mp h s hs),
    rfl⟩

/-- Witness for the amended C2: a spawn-failing script followed by a valid
one — both receive outcomes, the first with kind "IO error". -/
theorem spawn_failure_isolation_witness :
    ([badSpawnScript, okScript].all (fun s => s.canonical.isSome) = true)
    ∧ (processScripts [badSpawnScript, okScript]
        = .ok ([badSpawnScript, okScript].map fun s =>
            { classname := s.canonical.getD [], name := s.name
            , error := classifyResult s.result })
      ∧ classifyResult (.error "Permission denied".toList)
          = some { message := "Permission denied".toList
                 , error_type := "IO error".toList, body := [] }) :=
  ⟨rfl, spawn_failure_isolation [badSpawnScript, okScript] ("Permission denied".toList) rfl⟩

/-- Claim C3 counterexample: with zero scripts, `main` takes the early
`return Ok(());` before any report is built — it terminates without error but
produces no report at all, contradicting "still produces a report whose test
count is zero". -/
theorem empty_run_no_report_cex :
    producedReport [] = false ∧ (mainModel []).isOk = true :=
  ⟨rfl, rfl⟩

/-- Claim C3 (amended): when the list of script paths is empty the tool
terminates without error, but it returns before report generation and so
produces no report. -/
theorem empty_run_ok_no_report : mainModel [] = Except.ok none := rfl

/- ### Claim C8: exit classification -/

/-- Claim C8: a successfully spawned script exiting 0 yields no failure
record; one exiting with a non-zero code n yields a failure of kind
"Assertion failed" whose message is "Non-zero exit-code: " followed by the
decimal representation of n (and hence contains it). -/
theorem exit_classification (stdout stderr : List LogLine) (n : Int) (hn : n ≠ 0) :
    classifyResult (.ok (.exited 0, stdout, stderr)) = none
    ∧ (classifyResult (.ok (.exited n, stdout, stderr))).map TestError.error_type
        = some ("Assertion failed".toList)
    ∧ (classifyResult (.ok (.exited n, stdout, stderr))).map TestError.message
        = some ("Non-zero exit-code: ".toList ++ (toString n).toList) := by
  have hzero : (ExitStatus.exited 0).success = true := rfl
  have hsucc : (ExitStatus.exited n).success = false := by
    simp [ExitStatus.success, hn]
  refine ⟨?_, ?_, ?_⟩
  · simp [classifyResult, hzero]
  · simp [classifyResult, hsucc, ExitStatus.exitCode]
  · simp [classifyResult, hsucc, ExitStatus.exitCode]

/-- Witness for C8 at exit code 7 (the spec's example). -/
theorem exit_classification_witness :
    (7 : Int) ≠ 0
    ∧ (classifyResult (.ok (.exited 0, [], [])) = none
      ∧ (classifyResult (.ok (.exited 7, [], []))).map TestError.error_type
          = some ("Assertion failed".toList)
      ∧ (classifyResult (.ok (.exited 7, [], []))).map TestError.message
          = some ("Non-zero exit-code: ".toList ++ (toString (7 : Int)).toList)) :=
  ⟨by decide, exit_classification [] [] 7 (by decide)⟩

end Shunit
